import Mathlib

/-! ProjectHistory: the undo/redo history coordinator

A shallow embedding of `src/ProjectHistory.cpp`.  The coordinator's methods
(`InitialState`, `UndoAvailable`, `RedoAvailable`, `PushState`, `RollbackState`,
`ModifyState`, `PopState`, `SetStateTo`) are translated line by line as functions
on an explicit project state.  Their collaborators (`TrackList`, `Track`,
`UndoManager`, `ProjectFileIO`, `Tags`, `ViewInfo`, the `UndoPush` enumeration) are
declared in headers that are not part of the source file; they are modelled from
the specification and every such definition says so.
-/

namespace ProjectHistory

/-! ## Collaborators -/

/-- Modelled from the spec: `TranslatableString` (declared elsewhere) is a
human-readable label; only its text matters here. -/
abbrev TranslatableString := String

/-- Modelled from the spec: the metadata handle (`std::shared_ptr<Tags>`).  A handle
is identified by the object it points to; checkpoints hold handles, never deep
copies. -/
abbrev TagsPtr := Nat

/-- Modelled from the spec: the selection, "a plain copyable value describing the
current view/selection extent". -/
structure SelectedRegion where
  t0 : Int
  t1 : Int
deriving DecidableEq

/-- Modelled from the spec: a content item (`Track`, declared elsewhere).  `ident`
is the identity of the object (two items are the same object iff their `ident`
agree), `content` is its value. -/
structure Track where
  ident : Nat
  content : Nat
deriving DecidableEq

/-- Modelled from the spec: `Track::Duplicate` ("duplicateItem(item) -> newItem owned
by caller").  The duplicate is a newly allocated object with the same value; `heap`
is the number of objects allocated so far and is the identity the new object
receives. -/
def Track.Duplicate (t : Track) (heap : Nat) : Track × Nat :=
  ({ ident := heap, content := t.content }, heap + 1)

/-- Modelled from the spec: the content container (`TrackList`, declared elsewhere),
"an ordered, mutable collection of content items", together with the pending
items "in flight" that are "not yet reconciled into the container". -/
structure TrackList where
  tracks : List Track
  pending : List Track
deriving DecidableEq

/-- Modelled from the spec: `TrackList::Clear`, the container's `clear()`; it empties
the item sequence.  Pending items are not yet part of the container and stay as
they are. -/
def TrackList.Clear (l : TrackList) : TrackList :=
  { l with tracks := [] }

/-- Modelled from the spec: `TrackList::Add`, the container's `addItem(item)`; the
item goes to the end of the sequence. -/
def TrackList.Add (l : TrackList) (t : Track) : TrackList :=
  { l with tracks := l.tracks ++ [t] }

/-- Modelled from the spec: `TrackList::Any`, the container's `forEachItem()`; it
enumerates the items in order. -/
def TrackList.Any (l : TrackList) : List Track :=
  l.tracks

/-- Modelled from the spec: `TrackList::HasPendingTracks`, the container's
`hasPendingItems()`. -/
def TrackList.HasPendingTracks (l : TrackList) : Bool :=
  !l.pending.isEmpty

/-- Modelled from the spec: the `UndoPush` flags (declared in `UndoManager.h`), a
set of policy bits. -/
abbrev UndoPush := Nat

/-- Modelled from the spec: `UndoPush::MINIMAL`, the flags value with no policy bit
set ("suppresses the persistence signal"). -/
def UndoPush.MINIMAL : UndoPush := 0

/-- Modelled from the spec: `UndoPush::AUTOSAVE`, the single policy bit that
"triggers persistence signal after push". -/
def UndoPush.AUTOSAVE : UndoPush := 2

/-- The state handed to the restore callback (`UndoState`): the checkpoint's content
snapshot, selection and metadata handle. -/
structure UndoState where
  tracks : TrackList
  selectedRegion : SelectedRegion
  tags : TagsPtr
deriving DecidableEq

/-- Modelled from the spec: a checkpoint of the history stack: the captured state
with its descriptions and the flags it was pushed with. -/
structure UndoStackElem where
  state : UndoState
  description : TranslatableString
  shortDescription : TranslatableString
  flags : UndoPush
deriving DecidableEq

/-- Modelled from the spec: the history stack (`UndoManager`, declared elsewhere):
"an ordered sequence of Checkpoints plus a cursor (current position) and a
last-saved position marker". -/
structure UndoManager where
  stack : List UndoStackElem
  current : Nat
  saved : Option Nat
deriving DecidableEq

/-- What the persistence side-channel can observe of the project at the moment an
autosave is requested. -/
structure Observed where
  tracks : TrackList
  selectedRegion : SelectedRegion
  tags : TagsPtr
  undoManager : UndoManager
  mDirty : Bool
deriving DecidableEq

/-- Modelled from the spec: the persistence side-channel (`ProjectFileIO`, declared
elsewhere).  It only receives "autosave now" signals; `autosaved` records, oldest
first, what was observable at each signal. -/
structure ProjectFileIO where
  autosaved : List Observed
deriving DecidableEq

/-- The project with everything `ProjectHistory` reaches through it: the live
content container, the live selection (`ViewInfo::selectedRegion`), the live
metadata handle, the history stack, the persistence side-channel, the
coordinator's `mDirty` member, and the allocation counter for item objects. -/
structure AudacityProject where
  tracks : TrackList
  selectedRegion : SelectedRegion
  tags : TagsPtr
  undoManager : UndoManager
  projectFileIO : ProjectFileIO
  mDirty : Bool
  heap : Nat
deriving DecidableEq

/-- The part of the project visible to the persistence side-channel. -/
def AudacityProject.observe (project : AudacityProject) : Observed :=
  { tracks := project.tracks
    selectedRegion := project.selectedRegion
    tags := project.tags
    undoManager := project.undoManager
    mDirty := project.mDirty }

/-- Modelled from the spec: `ProjectFileIO::AutoSave`, the "request autosave now"
signal; it is recorded together with what is observable at that moment. -/
def ProjectFileIO.AutoSave (project : AudacityProject) : AudacityProject :=
  { project with
    projectFileIO :=
      { autosaved := project.projectFileIO.autosaved ++ [project.observe] } }

/-- The record of the autosave signals issued so far, oldest first. -/
def AudacityProject.autosaved (project : AudacityProject) : List Observed :=
  project.projectFileIO.autosaved

/-- The number of autosave signals issued so far. -/
def AudacityProject.autosaveCount (project : AudacityProject) : Nat :=
  project.autosaved.length

/-! ## The history stack (modelled from its contract in the specification) -/

/-- The loop `for (auto t : src) dst.Add(t->Duplicate())`: appends to `dst` a fresh
duplicate of every item of `src`, in order. -/
def addDuplicates (src : List Track) (dst : TrackList) (heap : Nat) : TrackList × Nat :=
  src.foldl (fun acc t => ((acc.1.Add (t.Duplicate acc.2).1), (t.Duplicate acc.2).2)) (dst, heap)

/-- Modelled from the spec: `UndoManager::ClearStates`: "empties the sequence and
resets cursor; no checkpoints survive". -/
def UndoManager.ClearStates (project : AudacityProject) : AudacityProject :=
  { project with undoManager := { project.undoManager with stack := [], current := 0 } }

/-- Modelled from the spec: `UndoManager::PushState`: "truncates beyond cursor,
appends new checkpoint, cursor = new tail".  The checkpoint's content snapshot is
"an owned, independent copy of the full Content Container at push time"; the
metadata handle is shared, not copied. -/
def UndoManager.PushState (l : TrackList) (selectedRegion : SelectedRegion) (tags : TagsPtr)
    (longDescription shortDescription : TranslatableString) (flags : UndoPush)
    (project : AudacityProject) : AudacityProject :=
  let copy := addDuplicates l.Any { tracks := [], pending := [] } project.heap
  let elem : UndoStackElem :=
    { state := { tracks := copy.1, selectedRegion := selectedRegion, tags := tags }
      description := longDescription
      shortDescription := shortDescription
      flags := flags }
  let stack := project.undoManager.stack.take (project.undoManager.current + 1) ++ [elem]
  { project with
    undoManager := { project.undoManager with stack := stack, current := stack.length - 1 }
    heap := copy.2 }

/-- Modelled from the spec: `UndoManager::StateSaved`: "marks current cursor position
as the baseline". -/
def UndoManager.StateSaved (project : AudacityProject) : AudacityProject :=
  { project with
    undoManager := { project.undoManager with saved := some project.undoManager.current } }

/-- Modelled from the spec: `UndoManager::UndoAvailable`: "true iff cursor is not at
the first position and the sequence is non-empty". -/
def UndoManager.UndoAvailable (um : UndoManager) : Bool :=
  decide (0 < um.current) && !um.stack.isEmpty

/-- Modelled from the spec: `UndoManager::RedoAvailable`: "true iff cursor is not at
the last position and the sequence is non-empty". -/
def UndoManager.RedoAvailable (um : UndoManager) : Bool :=
  decide (um.current + 1 ≠ um.stack.length) && !um.stack.isEmpty

/-- Modelled from the spec: `UndoManager::GetCurrentState`, the position of the
cursor. -/
def UndoManager.GetCurrentState (um : UndoManager) : Nat :=
  um.current

/-- Modelled from the spec: `UndoManager::ModifyState`: updates the checkpoint at the
cursor in place with a new snapshot of the container, the selection and the
metadata handle; descriptions and flags stay. -/
def UndoManager.ModifyState (l : TrackList) (selectedRegion : SelectedRegion) (tags : TagsPtr)
    (project : AudacityProject) : AudacityProject :=
  match project.undoManager.stack.get? project.undoManager.current with
  | none => project
  | some old =>
    let copy := addDuplicates l.Any { tracks := [], pending := [] } project.heap
    let elem : UndoStackElem :=
      { old with state := { tracks := copy.1, selectedRegion := selectedRegion, tags := tags } }
    { project with
      undoManager :=
        { project.undoManager with
          stack := project.undoManager.stack.set project.undoManager.current elem }
      heap := copy.2 }

/-- Modelled from the spec: `UndoManager::SetStateTo`: "validates `n`; on success
moves cursor to `n` and invokes `restoreCallback(checkpointAtN)` synchronously
exactly once before returning; on invalid `n`, leaves cursor unchanged and does
not invoke the callback". -/
def UndoManager.SetStateTo (n : Nat) (consumer : UndoState → AudacityProject → AudacityProject)
    (project : AudacityProject) : AudacityProject :=
  match project.undoManager.stack.get? n with
  | none => project
  | some elem =>
    consumer elem.state
      { project with undoManager := { project.undoManager with current := n } }

/-! ## The coordinator (`ProjectHistory.cpp`) -/

/-- `ProjectHistory::InitialState`.  The call of `UndoManager::PushState` passes `{}`,
the empty string, as short description and names no flags: the default of the
declaration applies, which the specification gives as AUTOSAVE. -/
def InitialState (project : AudacityProject) : AudacityProject :=
  let p1 := UndoManager.ClearStates project
  let p2 := UndoManager.PushState p1.tracks p1.selectedRegion p1.tags
    "Created new project" "" UndoPush.AUTOSAVE p1
  UndoManager.StateSaved p2

/-- `ProjectHistory::UndoAvailable`. -/
def UndoAvailable (project : AudacityProject) : Bool :=
  project.undoManager.UndoAvailable && !project.tracks.HasPendingTracks

/-- `ProjectHistory::RedoAvailable`. -/
def RedoAvailable (project : AudacityProject) : Bool :=
  project.undoManager.RedoAvailable && !project.tracks.HasPendingTracks

/-- `ProjectHistory::PushState` (three arguments). -/
def PushState (desc shortDesc : TranslatableString) (flags : UndoPush)
    (project : AudacityProject) : AudacityProject :=
  let p1 := UndoManager.PushState project.tracks project.selectedRegion project.tags
    desc shortDesc flags project
  let p2 := { p1 with mDirty := true }
  if (flags &&& UndoPush.AUTOSAVE) != UndoPush.MINIMAL then
    ProjectFileIO.AutoSave p2
  else
    p2

/-- `ProjectHistory::PushState` (two arguments): pushes with `UndoPush::AUTOSAVE`. -/
def PushState2 (desc shortDesc : TranslatableString) (project : AudacityProject) :
    AudacityProject :=
  PushState desc shortDesc UndoPush.AUTOSAVE project

/-- `ProjectHistory::ModifyState`. -/
def ModifyState (bWantsAutoSave : Bool) (project : AudacityProject) : AudacityProject :=
  let p1 := UndoManager.ModifyState project.tracks project.selectedRegion project.tags project
  if bWantsAutoSave then
    ProjectFileIO.AutoSave p1
  else
    p1

/-- `ProjectHistory::PopState`, the restore procedure. -/
def PopState (state : UndoState) (project : AudacityProject) : AudacityProject :=
  let p1 := { project with selectedRegion := state.selectedRegion }
  let p2 := { p1 with tags := state.tags }
  let p3 := { p2 with tracks := p2.tracks.Clear }
  let dst := addDuplicates state.tracks.Any p3.tracks p3.heap
  let p4 := { p3 with tracks := dst.1, heap := dst.2 }
  ProjectFileIO.AutoSave p4

/-- `ProjectHistory::SetStateTo`. -/
def SetStateTo (n : Nat) (project : AudacityProject) : AudacityProject :=
  UndoManager.SetStateTo n (fun state => PopState state) project

/-- `ProjectHistory::RollbackState`. -/
def RollbackState (project : AudacityProject) : AudacityProject :=
  SetStateTo project.undoManager.GetCurrentState project

/-! ## Callers and traces of operations -/

/-- An in-progress edit by a caller of the coordinator: it leaves the live content
container, selection and metadata handle at arbitrary new values, and may have
allocated `allocated` new item objects on the way. -/
structure Edit where
  tracks : TrackList
  selectedRegion : SelectedRegion
  tags : TagsPtr
  allocated : Nat

/-- The project after a caller's edit of the live state. -/
def Edit.apply (e : Edit) (project : AudacityProject) : AudacityProject :=
  { project with
    tracks := e.tracks
    selectedRegion := e.selectedRegion
    tags := e.tags
    heap := project.heap + e.allocated }

/-- The operations of the coordinator, and the edits of the live state that its
callers make between them. -/
inductive Operation where
  | callerEdit (e : Edit)
  | InitialState
  | UndoAvailable
  | RedoAvailable
  | PushState2 (desc shortDesc : TranslatableString)
  | PushState (desc shortDesc : TranslatableString) (flags : UndoPush)
  | RollbackState
  | ModifyState (bWantsAutoSave : Bool)
  | SetStateTo (n : Nat)

/-- The project after one operation of the coordinator (or one edit by a caller);
the two queries are `const` methods and leave it as it is. -/
def Operation.run : Operation → AudacityProject → AudacityProject
  | .callerEdit e, project => e.apply project
  | .InitialState, project => ProjectHistory.InitialState project
  | .UndoAvailable, project => project
  | .RedoAvailable, project => project
  | .PushState2 desc shortDesc, project => ProjectHistory.PushState2 desc shortDesc project
  | .PushState desc shortDesc flags, project =>
      ProjectHistory.PushState desc shortDesc flags project
  | .RollbackState, project => ProjectHistory.RollbackState project
  | .ModifyState b, project => ProjectHistory.ModifyState b project
  | .SetStateTo n, project => ProjectHistory.SetStateTo n project

/-- The project after a sequence of operations, first to last. -/
def runAll (ops : List Operation) (project : AudacityProject) : AudacityProject :=
  ops.foldl (fun p op => op.run p) project


/-- The duplicates of the items of `src`, in order, when the first of them is the
object number `heap`: what the loop of `addDuplicates` appends. -/
def freshCopies : List Track → Nat → List Track
  | [], _ => []
  | t :: ts, heap => { ident := heap, content := t.content } :: freshCopies ts (heap + 1)

/-! ## The restore procedure when duplication can fail -/

/-- The loop `for (auto t : src) dst.Add(t->Duplicate())` when `Duplicate` can throw:
`fails t` says that duplicating `t` throws.  `Except.ok` is the container and
allocation counter when the loop ran to its end, `Except.error` what they were
when the exception left the loop. -/
def addDuplicatesThrowing (fails : Track → Bool) :
    List Track → TrackList → Nat → Except (TrackList × Nat) (TrackList × Nat)
  | [], dst, heap => Except.ok (dst, heap)
  | t :: ts, dst, heap =>
    if fails t then
      Except.error (dst, heap)
    else
      addDuplicatesThrowing fails ts (dst.Add (t.Duplicate heap).1) (t.Duplicate heap).2

/-- `ProjectHistory::PopState` when `Duplicate` can throw.  The statements are those
of `PopState`; the function has no handler, so an exception from `Duplicate` leaves
it at once: `Except.error` is the project as the exception left it, `Except.ok`
the project after a normal return. -/
def PopStateThrowing (fails : Track → Bool) (state : UndoState) (project : AudacityProject) :
    Except AudacityProject AudacityProject :=
  let p1 := { project with selectedRegion := state.selectedRegion }
  let p2 := { p1 with tags := state.tags }
  let p3 := { p2 with tracks := p2.tracks.Clear }
  match addDuplicatesThrowing fails state.tracks.Any p3.tracks p3.heap with
  | Except.error dst => Except.error { p3 with tracks := dst.1, heap := dst.2 }
  | Except.ok dst => Except.ok <| ProjectFileIO.AutoSave { p3 with tracks := dst.1, heap := dst.2 }

/-! ## Sample inputs -/

/-- A small project used to evaluate the operations: two live items, an empty
history. -/
def sampleProject : AudacityProject :=
  { tracks := { tracks := [{ ident := 0, content := 10 }, { ident := 1, content := 11 }],
                pending := [] }
    selectedRegion := { t0 := 0, t1 := 5 }
    tags := 100
    undoManager := { stack := [], current := 0, saved := none }
    projectFileIO := { autosaved := [] }
    mDirty := false
    heap := 2 }

/-- An edit used to evaluate the operations: the second item is deleted, the
selection and the metadata handle are replaced. -/
def sampleEdit : Edit :=
  { tracks := { tracks := [{ ident := 0, content := 10 }], pending := [] }
    selectedRegion := { t0 := 1, t1 := 2 }
    tags := 101
    allocated := 0 }

/-- A checkpoint state used to evaluate the restore procedure: a snapshot of two
items, a selection and a metadata handle that differ from `sampleProject`. -/
def sampleState : UndoState :=
  { tracks := { tracks := [{ ident := 5, content := 20 }, { ident := 6, content := 21 }],
                pending := [] }
    selectedRegion := { t0 := 3, t1 := 4 }
    tags := 200 }

/-- The scenario of C7: `InitialState`, an edit and the push "Add track", an edit and
the push "Delete track", then `SetStateTo 0`. -/
def scenario (start : AudacityProject) (add delete : Edit) (short1 short2 : TranslatableString)
    (flags1 flags2 : UndoPush) : AudacityProject :=
  SetStateTo 0
    (PushState "Delete track" short2 flags2
      (delete.apply (PushState "Add track" short1 flags1 (add.apply (InitialState start)))))

/-- An edit used to evaluate the scenario: a third item is added to the two of
`sampleProject`. -/
def sampleAdd : Edit :=
  { tracks := { tracks := [{ ident := 0, content := 10 }, { ident := 1, content := 11 },
                           { ident := 4, content := 12 }],
                pending := [] }
    selectedRegion := { t0 := 0, t1 := 5 }
    tags := 100
    allocated := 1 }

/-! ## Sequences of pushes -/

/-- One call of `PushState` by a caller, after the edit of the live state (if any)
that it records. -/
structure PushCall where
  edit : Option Edit
  desc : TranslatableString
  shortDesc : TranslatableString
  flags : UndoPush

/-- The project after the caller's edit and its `PushState`. -/
def PushCall.run (c : PushCall) (project : AudacityProject) : AudacityProject :=
  PushState c.desc c.shortDesc c.flags
    (match c.edit with
     | none => project
     | some e => e.apply project)

/-- The project after a sequence of pushes, first to last, with no other operation
of the coordinator in between. -/
def pushAll (calls : List PushCall) (project : AudacityProject) : AudacityProject :=
  calls.foldl (fun p c => c.run p) project

/-- The project `sampleProject` with one pending item in flight. -/
def samplePending : AudacityProject :=
  { sampleProject with
    tracks := { sampleProject.tracks with pending := [{ ident := 3, content := 30 }] } }

/-! ## The order of effects -/

/-- What it means for the autosave signal to be the last effect of an operation that
takes `before` to `after`: `after` is the signal issued on a project `q` that
already has every final value (history stack, cursor, dirty flag, live selection,
metadata and container), and the signal records exactly those values. -/
def AutosaveLast (before after : AudacityProject) : Prop :=
  ∃ q : AudacityProject,
    after = ProjectFileIO.AutoSave q
      ∧ q.observe = after.observe
      ∧ q.autosaved = before.autosaved
      ∧ after.autosaved = before.autosaved ++ [after.observe]

/-! # Theorems -/

/-! ## Duplication with object identities -/

theorem freshCopies_length (src : List Track) (heap : Nat) :
    (freshCopies src heap).length = src.length := by
  induction src generalizing heap with
  | nil => rfl
  | cons t ts ih => simp [freshCopies, ih]

theorem freshCopies_content (src : List Track) (heap : Nat) :
    (freshCopies src heap).map Track.content = src.map Track.content := by
  induction src generalizing heap with
  | nil => rfl
  | cons t ts ih => simp [freshCopies, ih]

theorem freshCopies_ident (src : List Track) (heap : Nat) :
    ∀ d ∈ freshCopies src heap, heap ≤ d.ident ∧ d.ident < heap + src.length := by
  induction src generalizing heap with
  | nil => intro d hd; simp [freshCopies] at hd
  | cons t ts ih =>
    intro d hd
    simp only [freshCopies, List.mem_cons] at hd
    rcases hd with rfl | hd
    · simp
    · have := ih (heap + 1) d hd
      simp only [List.length_cons]
      omega

theorem addDuplicates_eq (src : List Track) (dst : TrackList) (heap : Nat) :
    addDuplicates src dst heap
      = ({ dst with tracks := dst.tracks ++ freshCopies src heap }, heap + src.length) := by
  induction src generalizing dst heap with
  | nil => simp [addDuplicates, freshCopies]
  | cons t ts ih =>
    have h := ih (dst.Add (t.Duplicate heap).1) (heap + 1)
    simp only [addDuplicates, List.foldl_cons] at h ⊢
    rw [show (t.Duplicate heap).2 = heap + 1 from rfl, h]
    simp [TrackList.Add, Track.Duplicate, freshCopies, Nat.add_comm, Nat.add_left_comm]

/-! ## What the operations do, field by field -/

theorem PopState_eq (state : UndoState) (project : AudacityProject) :
    PopState state project
      = ProjectFileIO.AutoSave
          { project with
            selectedRegion := state.selectedRegion
            tags := state.tags
            tracks :=
              { tracks := freshCopies state.tracks.tracks project.heap
                pending := project.tracks.pending }
            heap := project.heap + state.tracks.tracks.length } := by
  simp [PopState, addDuplicates_eq, TrackList.Clear, TrackList.Any]

theorem UndoManager_PushState_eq (l : TrackList) (sel : SelectedRegion) (tags : TagsPtr)
    (long short : TranslatableString) (flags : UndoPush) (project : AudacityProject) :
    UndoManager.PushState l sel tags long short flags project
      = { project with
          undoManager :=
            { project.undoManager with
              stack := project.undoManager.stack.take (project.undoManager.current + 1)
                ++ [{ state :=
                        { tracks := { tracks := freshCopies l.tracks project.heap, pending := [] }
                          selectedRegion := sel
                          tags := tags }
                      description := long
                      shortDescription := short
                      flags := flags }]
              current := (project.undoManager.stack.take (project.undoManager.current + 1)).length }
          heap := project.heap + l.tracks.length } := by
  simp [UndoManager.PushState, addDuplicates_eq, TrackList.Any]

theorem SetStateTo_of_get (n : Nat) (project : AudacityProject) (elem : UndoStackElem)
    (h : project.undoManager.stack.get? n = some elem) :
    SetStateTo n project
      = PopState elem.state
          { project with undoManager := { project.undoManager with current := n } } := by
  simp only [SetStateTo, UndoManager.SetStateTo, h]

theorem SetStateTo_of_le (n : Nat) (project : AudacityProject)
    (h : project.undoManager.stack.length ≤ n) :
    SetStateTo n project = project := by
  have hnone : project.undoManager.stack.get? n = none := List.get?_eq_none.mpr h
  simp only [SetStateTo, UndoManager.SetStateTo, hnone]

/-! ## Push then roll back -/

theorem PushState_undoManager (desc shortDesc : TranslatableString) (flags : UndoPush)
    (project : AudacityProject) :
    (PushState desc shortDesc flags project).undoManager
      = (UndoManager.PushState project.tracks project.selectedRegion project.tags
          desc shortDesc flags project).undoManager := by
  unfold PushState
  split <;> rfl

theorem PushState_heap (desc shortDesc : TranslatableString) (flags : UndoPush)
    (project : AudacityProject) :
    (PushState desc shortDesc flags project).heap = project.heap + project.tracks.tracks.length := by
  unfold PushState
  split <;> simp [UndoManager_PushState_eq, ProjectFileIO.AutoSave]

theorem PushState_live (desc shortDesc : TranslatableString) (flags : UndoPush)
    (project : AudacityProject) :
    (PushState desc shortDesc flags project).tracks = project.tracks
      ∧ (PushState desc shortDesc flags project).selectedRegion = project.selectedRegion
      ∧ (PushState desc shortDesc flags project).tags = project.tags := by
  unfold PushState
  split <;> simp [UndoManager_PushState_eq, ProjectFileIO.AutoSave]

theorem PushState_current_elem (desc shortDesc : TranslatableString) (flags : UndoPush)
    (project : AudacityProject) :
    (PushState desc shortDesc flags project).undoManager.stack.get?
        (PushState desc shortDesc flags project).undoManager.current
      = some
          { state :=
              { tracks := { tracks := freshCopies project.tracks.tracks project.heap, pending := [] }
                selectedRegion := project.selectedRegion
                tags := project.tags }
            description := desc
            shortDescription := shortDesc
            flags := flags } := by
  rw [PushState_undoManager, UndoManager_PushState_eq]
  simp

/-- C1: pushing a checkpoint and rolling back at once gives back the item sequence
of the moment of the push, value by value and in order, and the items now in the
live container are fresh duplicates, made by `Duplicate` from the checkpoint's
snapshot: none of them is one of the checkpoint's own items. -/
theorem push_then_rollback_roundtrip (desc shortDesc : TranslatableString) (flags : UndoPush)
    (project : AudacityProject) :
    ∃ elem : UndoStackElem,
      (PushState desc shortDesc flags project).undoManager.stack.get?
          (PushState desc shortDesc flags project).undoManager.current = some elem
      ∧ (RollbackState (PushState desc shortDesc flags project)).tracks.tracks.map Track.content
          = project.tracks.tracks.map Track.content
      ∧ (RollbackState (PushState desc shortDesc flags project)).tracks
          = (addDuplicates elem.state.tracks.Any
              (PushState desc shortDesc flags project).tracks.Clear
              (PushState desc shortDesc flags project).heap).1
      ∧ ∀ t ∈ (RollbackState (PushState desc shortDesc flags project)).tracks.tracks,
          ∀ c ∈ elem.state.tracks.tracks, t.ident ≠ c.ident := by
  have hget := PushState_current_elem desc shortDesc flags project
  refine ⟨_, hget, ?_⟩
  have hroll := SetStateTo_of_get _ _ _ hget
  simp only [RollbackState, UndoManager.GetCurrentState, hroll, PopState_eq,
    ProjectFileIO.AutoSave, addDuplicates_eq, TrackList.Any, TrackList.Clear,
    freshCopies_content, PushState_heap, (PushState_live desc shortDesc flags project).1,
    List.nil_append, true_and]
  intro t ht c hc
  have h1 := freshCopies_ident _ _ t ht
  have h2 := freshCopies_ident _ _ c hc
  rw [freshCopies_length] at h1
  omega

/-! ## Rolling back and moving the cursor -/

/-- C2: on a non-empty history (its cursor points at a checkpoint), whatever a caller's edit
left in the live container, selection and metadata, `RollbackState` leaves the
live selection, metadata handle and item sequence (by value, in order) equal to
those of the checkpoint at the cursor, and leaves the cursor and the checkpoint
sequence as they were. -/
theorem rollback_discards_edits (project : AudacityProject) (e : Edit)
    (hcur : project.undoManager.current < project.undoManager.stack.length) :
    ∃ elem : UndoStackElem,
      project.undoManager.stack.get? project.undoManager.current = some elem
      ∧ (RollbackState (e.apply project)).selectedRegion = elem.state.selectedRegion
      ∧ (RollbackState (e.apply project)).tags = elem.state.tags
      ∧ (RollbackState (e.apply project)).tracks.tracks.map Track.content
          = elem.state.tracks.tracks.map Track.content
      ∧ (RollbackState (e.apply project)).undoManager.current = project.undoManager.current
      ∧ (RollbackState (e.apply project)).undoManager.stack = project.undoManager.stack := by
  obtain ⟨elem, hget⟩ : ∃ elem, project.undoManager.stack.get? project.undoManager.current
      = some elem := ⟨_, List.get?_eq_get hcur⟩
  refine ⟨elem, hget, ?_⟩
  have hget2 : (e.apply project).undoManager.stack.get?
      (e.apply project).undoManager.GetCurrentState = some elem := hget
  have hroll : RollbackState (e.apply project)
      = PopState elem.state
          { e.apply project with
            undoManager := { (e.apply project).undoManager with
              current := (e.apply project).undoManager.GetCurrentState } } :=
    SetStateTo_of_get _ _ _ hget2
  rw [hroll, PopState_eq]
  simp [freshCopies_content, ProjectFileIO.AutoSave, Edit.apply, UndoManager.GetCurrentState]

/-- C2 at a concrete input: the baseline of `sampleProject`, then `sampleEdit`, then
`RollbackState`. -/
theorem rollback_discards_edits_witness :
    (InitialState sampleProject).undoManager.current
        < (InitialState sampleProject).undoManager.stack.length
    ∧ ∃ elem : UndoStackElem,
      (InitialState sampleProject).undoManager.stack.get?
          (InitialState sampleProject).undoManager.current = some elem
      ∧ (RollbackState (sampleEdit.apply (InitialState sampleProject))).selectedRegion
          = elem.state.selectedRegion
      ∧ (RollbackState (sampleEdit.apply (InitialState sampleProject))).tags = elem.state.tags
      ∧ (RollbackState (sampleEdit.apply (InitialState sampleProject))).tracks.tracks.map
            Track.content
          = elem.state.tracks.tracks.map Track.content
      ∧ (RollbackState (sampleEdit.apply (InitialState sampleProject))).undoManager.current
          = (InitialState sampleProject).undoManager.current
      ∧ (RollbackState (sampleEdit.apply (InitialState sampleProject))).undoManager.stack
          = (InitialState sampleProject).undoManager.stack :=
  ⟨by decide, rollback_discards_edits (InitialState sampleProject) sampleEdit (by decide)⟩

/-- C3: for a position `n` inside the stack, `SetStateTo n` is one run of the
restore procedure on the checkpoint at `n` with the cursor moved to `n`;
afterwards the cursor is `n`, the live selection and metadata handle are the
checkpoint's, and the live container holds exactly the duplicates of the snapshot's
items, one each and in the snapshot's order, none of which was live before. -/
theorem setStateTo_restores (n : Nat) (project : AudacityProject)
    (hn : n < project.undoManager.stack.length)
    (hheap : ∀ t ∈ project.tracks.tracks, t.ident < project.heap) :
    ∃ elem : UndoStackElem,
      project.undoManager.stack.get? n = some elem
      ∧ SetStateTo n project
          = PopState elem.state
              { project with undoManager := { project.undoManager with current := n } }
      ∧ (SetStateTo n project).undoManager.current = n
      ∧ (SetStateTo n project).undoManager.stack = project.undoManager.stack
      ∧ (SetStateTo n project).selectedRegion = elem.state.selectedRegion
      ∧ (SetStateTo n project).tags = elem.state.tags
      ∧ (SetStateTo n project).tracks
          = (addDuplicates elem.state.tracks.Any project.tracks.Clear project.heap).1
      ∧ (SetStateTo n project).tracks.tracks.length = elem.state.tracks.tracks.length
      ∧ (SetStateTo n project).tracks.tracks.map Track.content
          = elem.state.tracks.tracks.map Track.content
      ∧ (∀ t ∈ (SetStateTo n project).tracks.tracks, t ∉ project.tracks.tracks)
      ∧ (SetStateTo n project).autosaved.length
          = project.autosaved.length + 1 := by
  obtain ⟨elem, hget⟩ : ∃ elem, project.undoManager.stack.get? n = some elem :=
    ⟨_, List.get?_eq_get hn⟩
  refine ⟨elem, hget, SetStateTo_of_get n project elem hget, ?_⟩
  rw [SetStateTo_of_get n project elem hget, PopState_eq]
  simp only [addDuplicates_eq, AudacityProject.autosaved, ProjectFileIO.AutoSave, TrackList.Any,
    TrackList.Clear, freshCopies_content, freshCopies_length, List.nil_append,
    List.length_append, List.length_singleton, true_and, and_true]
  intro t ht hold
  have h1 := freshCopies_ident _ _ t ht
  have h2 := hheap t hold
  omega

/-- C3 at a concrete input: the baseline of `sampleProject`, an edit, a push, then
`SetStateTo 0`. -/
theorem setStateTo_restores_witness :
    ∃ elem : UndoStackElem,
      (PushState2 "Delete track" "Delete"
          (sampleEdit.apply (InitialState sampleProject))).undoManager.stack.get? 0 = some elem
      ∧ (SetStateTo 0 (PushState2 "Delete track" "Delete"
          (sampleEdit.apply (InitialState sampleProject)))).tracks.tracks.map Track.content
          = elem.state.tracks.tracks.map Track.content
      ∧ ∀ t ∈ (SetStateTo 0 (PushState2 "Delete track" "Delete"
            (sampleEdit.apply (InitialState sampleProject)))).tracks.tracks,
          t ∉ (PushState2 "Delete track" "Delete"
            (sampleEdit.apply (InitialState sampleProject))).tracks.tracks := by
  obtain ⟨elem, h1, _, _, _, _, _, _, _, h2, h3, _⟩ :=
    setStateTo_restores 0
      (PushState2 "Delete track" "Delete" (sampleEdit.apply (InitialState sampleProject)))
      (by decide) (by decide)
  exact ⟨elem, h1, h2, h3⟩

/-- C4: for a position `n` outside the stack (`n` at or beyond the number of
checkpoints, any `n` on an empty stack) `SetStateTo n` changes nothing at all:
cursor, checkpoints, live selection, metadata, container, dirty flag, the record
of autosave signals and the allocation counter are as before, so the restore
procedure did not run. -/
theorem setStateTo_out_of_range (n : Nat) (project : AudacityProject)
    (hn : project.undoManager.stack.length ≤ n) :
    SetStateTo n project = project
      ∧ (SetStateTo n project).undoManager = project.undoManager
      ∧ (SetStateTo n project).selectedRegion = project.selectedRegion
      ∧ (SetStateTo n project).tags = project.tags
      ∧ (SetStateTo n project).tracks = project.tracks
      ∧ (SetStateTo n project).mDirty = project.mDirty
      ∧ (SetStateTo n project).autosaved = project.autosaved
      ∧ (∀ state : UndoState, SetStateTo n project ≠ PopState state project) := by
  have h := SetStateTo_of_le n project hn
  refine ⟨h, by rw [h], by rw [h], by rw [h], by rw [h], by rw [h], by rw [h], ?_⟩
  intro state heq
  rw [h, PopState_eq] at heq
  have := congrArg (fun p => p.autosaved.length) heq
  simp [AudacityProject.autosaved, ProjectFileIO.AutoSave] at this

/-- C4 at concrete inputs: position 1 on the one-checkpoint history of
`InitialState sampleProject`. -/
theorem setStateTo_out_of_range_witness :
    SetStateTo 1 (InitialState sampleProject) = InitialState sampleProject :=
  (setStateTo_out_of_range 1 (InitialState sampleProject) (by decide)).1

/-- C5: the restore procedure is idempotent: run twice in a row with the same
checkpoint it leaves the same live selection, metadata handle and item sequence
(by value and order, with the same pending items) as run once; the history stack
and the dirty flag, which it never touches, agree as well. -/
theorem popState_idempotent (state : UndoState) (project : AudacityProject) :
    (PopState state (PopState state project)).selectedRegion
        = (PopState state project).selectedRegion
      ∧ (PopState state (PopState state project)).tags = (PopState state project).tags
      ∧ (PopState state (PopState state project)).tracks.tracks.map Track.content
          = (PopState state project).tracks.tracks.map Track.content
      ∧ (PopState state (PopState state project)).tracks.pending
          = (PopState state project).tracks.pending
      ∧ (PopState state (PopState state project)).undoManager
          = (PopState state project).undoManager
      ∧ (PopState state (PopState state project)).mDirty = (PopState state project).mDirty := by
  simp [PopState_eq, ProjectFileIO.AutoSave, freshCopies_content]

/-! ## The restore procedure when duplication fails -/

theorem addDuplicatesThrowing_ok (fails : Track → Bool) (src : List Track) (dst : TrackList)
    (heap : Nat) (h : ∀ t ∈ src, fails t = false) :
    addDuplicatesThrowing fails src dst heap = Except.ok (addDuplicates src dst heap) := by
  induction src generalizing dst heap with
  | nil => rfl
  | cons t ts ih =>
    have ht : fails t = false := h t (List.mem_cons_self _ _)
    have hts : ∀ u ∈ ts, fails u = false := fun u hu => h u (List.mem_cons_of_mem _ hu)
    simp only [addDuplicatesThrowing, ht, Bool.false_eq_true, if_false, ih _ _ hts]
    simp [addDuplicates]

theorem addDuplicatesThrowing_error (fails : Track → Bool) (src : List Track) (dst : TrackList)
    (heap : Nat) (h : ∃ t ∈ src, fails t = true) :
    addDuplicatesThrowing fails src dst heap
      = Except.error (addDuplicates (src.takeWhile (fun t => !fails t)) dst heap) := by
  induction src generalizing dst heap with
  | nil => simp at h
  | cons t ts ih =>
    cases ht : fails t with
    | true => simp [addDuplicatesThrowing, ht, List.takeWhile, addDuplicates]
    | false =>
      have hts : ∃ u ∈ ts, fails u = true := by
        obtain ⟨u, hu, hfu⟩ := h
        rcases List.mem_cons.mp hu with rfl | hu
        · simp [ht] at hfu
        · exact ⟨u, hu, hfu⟩
      simp only [addDuplicatesThrowing, ht, Bool.false_eq_true, if_false, ih _ _ hts]
      simp [List.takeWhile, ht, addDuplicates]

theorem PopStateThrowing_of_no_failure (fails : Track → Bool) (state : UndoState)
    (project : AudacityProject) (h : ∀ t ∈ state.tracks.tracks, fails t = false) :
    PopStateThrowing fails state project = Except.ok (PopState state project) := by
  simp only [PopStateThrowing, PopState, TrackList.Any, addDuplicatesThrowing_ok _ _ _ _ h]

theorem PopStateThrowing_of_failure (fails : Track → Bool) (state : UndoState)
    (project : AudacityProject) (h : ∃ t ∈ state.tracks.tracks, fails t = true) :
    PopStateThrowing fails state project
      = Except.error
          { project with
            selectedRegion := state.selectedRegion
            tags := state.tags
            tracks :=
              { tracks := freshCopies (state.tracks.tracks.takeWhile (fun t => !fails t))
                  project.heap
                pending := project.tracks.pending }
            heap := project.heap
              + (state.tracks.tracks.takeWhile (fun t => !fails t)).length } := by
  simp only [PopStateThrowing, TrackList.Any, addDuplicatesThrowing_error _ _ _ _ h,
    addDuplicates_eq, TrackList.Clear, List.nil_append]

/-- C6 as stated fails: with a snapshot of two items of which the second cannot be
duplicated, the restore is left by the exception with the live selection, the
metadata handle and the container all changed. -/
theorem popState_not_failure_atomic :
    (∃ t ∈ sampleState.tracks.tracks, (fun u : Track => u.content == 21) t = true)
    ∧ ∃ left : AudacityProject,
        PopStateThrowing (fun u => u.content == 21) sampleState sampleProject = Except.error left
        ∧ left.selectedRegion ≠ sampleProject.selectedRegion
        ∧ left.tags ≠ sampleProject.tags
        ∧ left.tracks ≠ sampleProject.tracks
        ∧ left.tracks.tracks = [{ ident := 2, content := 20 }] :=
  ⟨by decide, _, rfl, by decide, by decide, by decide, by decide⟩

/-- C6 as amended: when the duplication of a snapshot item fails, the restore is not
all-or-nothing.  The exception leaves it with the live selection and metadata
handle already those of the checkpoint and the live container holding duplicates
of exactly the snapshot items before the first failing one (the items live before
are gone); no autosave signal is issued, and the history stack, the cursor and the
dirty flag are as before. -/
theorem popState_failure_leaves_partial_restore (fails : Track → Bool) (state : UndoState)
    (project : AudacityProject) (hfail : ∃ t ∈ state.tracks.tracks, fails t = true) :
    ∃ left : AudacityProject,
      PopStateThrowing fails state project = Except.error left
      ∧ left.selectedRegion = state.selectedRegion
      ∧ left.tags = state.tags
      ∧ left.tracks
          = (addDuplicates (state.tracks.tracks.takeWhile (fun t => !fails t))
              project.tracks.Clear project.heap).1
      ∧ left.tracks.tracks.map Track.content
          = (state.tracks.tracks.takeWhile (fun t => !fails t)).map Track.content
      ∧ left.tracks.tracks.length < state.tracks.tracks.length
      ∧ left.autosaved = project.autosaved
      ∧ left.undoManager = project.undoManager
      ∧ left.mDirty = project.mDirty := by
  refine ⟨_, PopStateThrowing_of_failure fails state project hfail, ?_⟩
  simp only [addDuplicates_eq, AudacityProject.autosaved, TrackList.Clear, List.nil_append,
    freshCopies_content, freshCopies_length, true_and, and_true]
  obtain ⟨t, ht, hft⟩ := hfail
  by_contra hlen
  have hall : state.tracks.tracks.takeWhile (fun t => !fails t) = state.tracks.tracks := by
    have hle := List.takeWhile_sublist (fun t => !fails t) (l := state.tracks.tracks)
    exact hle.eq_of_length_le (Nat.le_of_not_lt hlen)
  have := (List.takeWhile_eq_self_iff.mp hall) t ht
  simp [hft] at this

/-- C6 as amended, at a concrete input: the second of the two items of
`sampleState` cannot be duplicated. -/
theorem popState_failure_leaves_partial_restore_witness :
    ∃ left : AudacityProject,
      PopStateThrowing (fun u => u.content == 21) sampleState sampleProject = Except.error left
      ∧ left.selectedRegion = sampleState.selectedRegion
      ∧ left.tags = sampleState.tags
      ∧ left.tracks.tracks.map Track.content = [20]
      ∧ left.autosaved = sampleProject.autosaved := by
  obtain ⟨left, h1, h2, h3, _, h5, _, h7, _⟩ :=
    popState_failure_leaves_partial_restore (fun u => u.content == 21) sampleState
      sampleProject (by decide)
  exact ⟨left, h1, h2, h3, by rw [h5]; decide, h7⟩

/-! ## The scenario: baseline, two pushes, back to position 0 -/

theorem InitialState_eq (project : AudacityProject) :
    InitialState project
      = { project with
          undoManager :=
            { stack :=
                [{ state :=
                     { tracks :=
                         { tracks := freshCopies project.tracks.tracks project.heap, pending := [] }
                       selectedRegion := project.selectedRegion
                       tags := project.tags }
                   description := "Created new project"
                   shortDescription := ""
                   flags := UndoPush.AUTOSAVE }]
              current := 0
              saved := some 0 }
          heap := project.heap + project.tracks.tracks.length } := by
  simp [InitialState, UndoManager.ClearStates, UndoManager_PushState_eq, UndoManager.StateSaved]

theorem PushState_stack (desc shortDesc : TranslatableString) (flags : UndoPush)
    (project : AudacityProject) :
    (PushState desc shortDesc flags project).undoManager.stack
      = project.undoManager.stack.take (project.undoManager.current + 1)
        ++ [{ state :=
                { tracks :=
                    { tracks := freshCopies project.tracks.tracks project.heap, pending := [] }
                  selectedRegion := project.selectedRegion
                  tags := project.tags }
              description := desc
              shortDescription := shortDesc
              flags := flags }] := by
  rw [PushState_undoManager, UndoManager_PushState_eq]

theorem PushState_current (desc shortDesc : TranslatableString) (flags : UndoPush)
    (project : AudacityProject) :
    (PushState desc shortDesc flags project).undoManager.current
      = (project.undoManager.stack.take (project.undoManager.current + 1)).length := by
  rw [PushState_undoManager, UndoManager_PushState_eq]

theorem scenario_before_move (start : AudacityProject) (add delete : Edit)
    (short1 short2 : TranslatableString) (flags1 flags2 : UndoPush) :
    (PushState "Delete track" short2 flags2
      (delete.apply (PushState "Add track" short1 flags1
        (add.apply (InitialState start))))).undoManager.stack
      = [{ state :=
             { tracks := { tracks := freshCopies start.tracks.tracks start.heap, pending := [] }
               selectedRegion := start.selectedRegion
               tags := start.tags }
           description := "Created new project"
           shortDescription := ""
           flags := UndoPush.AUTOSAVE },
         { state :=
             { tracks :=
                 { tracks := freshCopies add.tracks.tracks
                     (start.heap + start.tracks.tracks.length + add.allocated)
                   pending := [] }
               selectedRegion := add.selectedRegion
               tags := add.tags }
           description := "Add track"
           shortDescription := short1
           flags := flags1 },
         { state :=
             { tracks :=
                 { tracks := freshCopies delete.tracks.tracks
                     (start.heap + start.tracks.tracks.length + add.allocated
                       + add.tracks.tracks.length + delete.allocated)
                   pending := [] }
               selectedRegion := delete.selectedRegion
               tags := delete.tags }
           description := "Delete track"
           shortDescription := short2
           flags := flags2 }] := by
  have h1 : (PushState "Add track" short1 flags1 (add.apply (InitialState start))).undoManager.stack
      = _ := PushState_stack _ _ _ _
  have c1 : (PushState "Add track" short1 flags1
      (add.apply (InitialState start))).undoManager.current = _ := PushState_current _ _ _ _
  have hp1 := PushState_heap "Add track" short1 flags1 (add.apply (InitialState start))
  rw [PushState_stack]
  simp only [Edit.apply, InitialState_eq] at h1 c1 hp1 ⊢
  rw [h1, c1, hp1]
  simp

/-- C7 as stated fails: in the scenario run on `sampleProject` the container holds
the values 10, 11, 12 when "Add track" is pushed, and after `SetStateTo 0` it holds
10, 11, the values of the moment of `InitialState`. -/
theorem scenario_not_add_track_state :
    (sampleAdd.apply (InitialState sampleProject)).tracks.tracks.map Track.content = [10, 11, 12]
    ∧ (scenario sampleProject sampleAdd sampleEdit "Add" "Delete"
        UndoPush.AUTOSAVE UndoPush.AUTOSAVE).tracks.tracks.map Track.content = [10, 11]
    ∧ (scenario sampleProject sampleAdd sampleEdit "Add" "Delete"
        UndoPush.AUTOSAVE UndoPush.AUTOSAVE).tracks.tracks.map Track.content
      ≠ (sampleAdd.apply (InitialState sampleProject)).tracks.tracks.map Track.content := by
  decide

/-- C7 as amended: in the scenario, `SetStateTo 0` restores the live container (and
selection and metadata handle) to what they were at `InitialState`, the baseline
checkpoint at position 0; the state of "Add track" time is the checkpoint at
position 1.  Afterwards the cursor is at position 0 of three checkpoints,
`UndoAvailable` is false and, with no pending items, `RedoAvailable` is true. -/
theorem scenario_restores_baseline (start : AudacityProject) (add delete : Edit)
    (short1 short2 : TranslatableString) (flags1 flags2 : UndoPush) :
    (scenario start add delete short1 short2 flags1 flags2).tracks.tracks.map Track.content
        = start.tracks.tracks.map Track.content
      ∧ (scenario start add delete short1 short2 flags1 flags2).selectedRegion
          = start.selectedRegion
      ∧ (scenario start add delete short1 short2 flags1 flags2).tags = start.tags
      ∧ (scenario start add delete short1 short2 flags1 flags2).undoManager.current = 0
      ∧ (scenario start add delete short1 short2 flags1 flags2).undoManager.stack.map
            UndoStackElem.description
          = ["Created new project", "Add track", "Delete track"]
      ∧ ((scenario start add delete short1 short2 flags1 flags2).undoManager.stack.get? 1).map
            (fun elem => elem.state.tracks.tracks.map Track.content)
          = some (add.tracks.tracks.map Track.content)
      ∧ UndoAvailable (scenario start add delete short1 short2 flags1 flags2) = false
      ∧ ((scenario start add delete short1 short2 flags1 flags2).tracks.HasPendingTracks = false
          → RedoAvailable (scenario start add delete short1 short2 flags1 flags2) = true) := by
  have hstack := scenario_before_move start add delete short1 short2 flags1 flags2
  have hget : (PushState "Delete track" short2 flags2
      (delete.apply (PushState "Add track" short1 flags1
        (add.apply (InitialState start))))).undoManager.stack.get? 0
      = some
          { state :=
              { tracks := { tracks := freshCopies start.tracks.tracks start.heap, pending := [] }
                selectedRegion := start.selectedRegion
                tags := start.tags }
            description := "Created new project"
            shortDescription := ""
            flags := UndoPush.AUTOSAVE } := by
    rw [hstack]; rfl
  have hrun := SetStateTo_of_get 0 _ _ hget
  unfold scenario
  rw [hrun, PopState_eq]
  simp only [hstack, ProjectFileIO.AutoSave, freshCopies_content, UndoAvailable, RedoAvailable,
    UndoManager.UndoAvailable, UndoManager.RedoAvailable]
  simp [freshCopies_content]

/-! ## Autosave on push -/

theorem PushState_autosaved (desc shortDesc : TranslatableString) (flags : UndoPush)
    (project : AudacityProject) :
    (PushState desc shortDesc flags project).autosaved
      = if flags.testBit 1 then
          project.autosaved
            ++ [{ (UndoManager.PushState project.tracks project.selectedRegion project.tags
                    desc shortDesc flags project) with mDirty := true }.observe]
        else project.autosaved := by
  have hbit : ((flags &&& UndoPush.AUTOSAVE) != UndoPush.MINIMAL) = flags.testBit 1 := by
    have h := Nat.and_two_pow flags 1
    simp only [pow_one] at h
    show ((flags &&& 2) != 0) = flags.testBit 1
    rw [h]
    cases flags.testBit 1 <;> simp
  unfold PushState
  simp only [hbit]
  cases flags.testBit 1 <;>
    simp [UndoManager_PushState_eq, AudacityProject.autosaved, ProjectFileIO.AutoSave]

/-- C8: a push with `UndoPush::MINIMAL` issues no autosave signal, and the
two-argument `PushState` issues exactly one. -/
theorem pushState_minimal_and_default_autosave (desc shortDesc : TranslatableString)
    (project : AudacityProject) :
    (PushState desc shortDesc UndoPush.MINIMAL project).autosaved
        = project.autosaved
      ∧ (PushState desc shortDesc UndoPush.MINIMAL project).autosaveCount
          = project.autosaveCount
      ∧ (PushState2 desc shortDesc project).autosaveCount = project.autosaveCount + 1
      ∧ (PushState2 desc shortDesc project).autosaved.take project.autosaveCount
          = project.autosaved := by
  have hmin := PushState_autosaved desc shortDesc UndoPush.MINIMAL project
  have hdef := PushState_autosaved desc shortDesc UndoPush.AUTOSAVE project
  have b0 : Nat.testBit UndoPush.MINIMAL 1 = false := by decide
  have b1 : Nat.testBit UndoPush.AUTOSAVE 1 = true := by decide
  rw [b0] at hmin
  rw [b1] at hdef
  simp only [Bool.false_eq_true, if_false, if_true] at hmin hdef
  simp [AudacityProject.autosaveCount, PushState2, hmin, hdef]

/-- C9 as stated fails: the flags value 1 carries a policy bit other than AUTOSAVE;
it is not MINIMAL, and yet a push with it issues no autosave signal. -/
theorem pushState_other_bit_suppresses_autosave :
    (1 : UndoPush) ≠ UndoPush.MINIMAL
      ∧ (PushState "Edit" "Edit" 1 sampleProject).autosaved
          = sampleProject.autosaved
      ∧ (PushState "Edit" "Edit" 1 sampleProject).autosaveCount = 0 := by
  decide

/-- C9 as amended: for every flags value, taken as a set of policy bits, `PushState`
issues the autosave signal (exactly once) when the AUTOSAVE bit is set in it and
issues none when that bit is clear, whatever the other bits are: MINIMAL and every
value made of other bits only suppress autosave. -/
theorem pushState_autosave_iff_bit (desc shortDesc : TranslatableString) (flags : UndoPush)
    (project : AudacityProject) :
    UndoPush.AUTOSAVE = 2 ^ 1
      ∧ (flags.testBit 1 = true →
          (PushState desc shortDesc flags project).autosaveCount = project.autosaveCount + 1)
      ∧ (flags.testBit 1 = false →
          (PushState desc shortDesc flags project).autosaved
            = project.autosaved)
      ∧ (flags &&& UndoPush.AUTOSAVE = UndoPush.MINIMAL ↔ flags.testBit 1 = false) := by
  have h := PushState_autosaved desc shortDesc flags project
  refine ⟨rfl, ?_, ?_, ?_⟩
  · intro hb
    rw [hb] at h
    simp [AudacityProject.autosaveCount, h]
  · intro hb
    rw [hb] at h
    simpa using h
  · have h2 := Nat.and_two_pow flags 1
    simp only [pow_one] at h2
    show flags &&& 2 = 0 ↔ _
    rw [h2]
    cases flags.testBit 1 <;> simp

/-! ## The dirty flag -/

theorem PushState_mDirty (desc shortDesc : TranslatableString) (flags : UndoPush)
    (project : AudacityProject) :
    (PushState desc shortDesc flags project).mDirty = true := by
  unfold PushState
  split <;> rfl

theorem ModifyState_mDirty (b : Bool) (project : AudacityProject) :
    (ModifyState b project).mDirty = project.mDirty := by
  unfold ModifyState UndoManager.ModifyState
  cases project.undoManager.stack.get? project.undoManager.current <;>
    cases b <;> rfl

theorem SetStateTo_mDirty (n : Nat) (project : AudacityProject) :
    (SetStateTo n project).mDirty = project.mDirty := by
  unfold SetStateTo UndoManager.SetStateTo
  cases project.undoManager.stack.get? n <;> rfl

theorem InitialState_mDirty (project : AudacityProject) :
    (InitialState project).mDirty = project.mDirty := by
  rw [InitialState_eq]

theorem run_keeps_dirty (op : Operation) (project : AudacityProject)
    (h : project.mDirty = true) : (op.run project).mDirty = true := by
  cases op with
  | callerEdit e => exact h
  | InitialState => exact (InitialState_mDirty project).trans h
  | UndoAvailable => exact h
  | RedoAvailable => exact h
  | PushState2 desc shortDesc => exact PushState_mDirty _ _ _ _
  | PushState desc shortDesc flags => exact PushState_mDirty _ _ _ _
  | RollbackState => exact (SetStateTo_mDirty _ project).trans h
  | ModifyState b => exact (ModifyState_mDirty b project).trans h
  | SetStateTo n => exact (SetStateTo_mDirty n project).trans h

theorem runAll_keeps_dirty (ops : List Operation) (project : AudacityProject)
    (h : project.mDirty = true) : (runAll ops project).mDirty = true := by
  induction ops generalizing project with
  | nil => exact h
  | cons op ops ih => exact ih (op.run project) (run_keeps_dirty op project h)

/-- C10: no operation of the coordinator clears the dirty flag: if it is true before
`InitialState`, `PushState` (either form), `ModifyState`, `RollbackState`,
`SetStateTo n`, `UndoAvailable` or `RedoAvailable` (or an edit of the live state by
a caller), it is true afterwards; hence it is true after any sequence of
operations that follows a `PushState`. -/
theorem dirty_never_cleared :
    (∀ (op : Operation) (project : AudacityProject),
        project.mDirty = true → (op.run project).mDirty = true)
      ∧ (∀ (desc shortDesc : TranslatableString) (flags : UndoPush) (ops : List Operation)
          (project : AudacityProject),
          (runAll ops (PushState desc shortDesc flags project)).mDirty = true)
      ∧ (∀ (ops : List Operation) (project : AudacityProject),
          project.mDirty = true → (runAll ops project).mDirty = true) :=
  ⟨run_keeps_dirty,
   fun desc shortDesc flags ops project =>
     runAll_keeps_dirty ops _ (PushState_mDirty desc shortDesc flags project),
   runAll_keeps_dirty⟩

/-- C11: `PushState` sets the dirty flag unconditionally: whatever the flag was
before, and for every description and flags value (MINIMAL included), it is true
after the three-argument `PushState` and after the two-argument one. -/
theorem pushState_sets_dirty (desc shortDesc : TranslatableString) (flags : UndoPush)
    (project : AudacityProject) :
    (PushState desc shortDesc flags project).mDirty = true
      ∧ (PushState desc shortDesc UndoPush.MINIMAL project).mDirty = true
      ∧ (PushState2 desc shortDesc project).mDirty = true :=
  ⟨PushState_mDirty _ _ _ _, PushState_mDirty _ _ _ _, PushState_mDirty _ _ _ _⟩

/-! ## Availability of undo and redo -/

/-- C12: with pending items in the container `UndoAvailable` and `RedoAvailable` are
both false, whatever the stack and the cursor are and whatever the stack itself
reports; with no pending items they are exactly what the stack reports. -/
theorem availability_gated_by_pending (project : AudacityProject) :
    (project.tracks.HasPendingTracks = true →
        UndoAvailable project = false ∧ RedoAvailable project = false)
      ∧ (project.tracks.HasPendingTracks = false →
          UndoAvailable project = project.undoManager.UndoAvailable
            ∧ RedoAvailable project = project.undoManager.RedoAvailable) := by
  constructor
  · intro h
    simp [UndoAvailable, RedoAvailable, h]
  · intro h
    simp [UndoAvailable, RedoAvailable, h]

theorem PushState_stack_nonempty (desc shortDesc : TranslatableString) (flags : UndoPush)
    (project : AudacityProject) :
    (PushState desc shortDesc flags project).undoManager.stack ≠ [] := by
  rw [PushState_stack]
  simp

theorem PushState_cursor_at_tail (desc shortDesc : TranslatableString) (flags : UndoPush)
    (project : AudacityProject) :
    (PushState desc shortDesc flags project).undoManager.current + 1
      = (PushState desc shortDesc flags project).undoManager.stack.length := by
  rw [PushState_stack, PushState_current]
  simp

theorem PushState_cursor_pos (desc shortDesc : TranslatableString) (flags : UndoPush)
    (project : AudacityProject) (h : project.undoManager.stack ≠ []) :
    0 < (PushState desc shortDesc flags project).undoManager.current := by
  rw [PushState_current]
  have hlen : 0 < project.undoManager.stack.length := List.length_pos.mpr h
  simp only [List.length_take]
  omega

theorem PushCall_run_stack (c : PushCall) (project : AudacityProject)
    (h : project.undoManager.stack ≠ []) :
    (c.run project).undoManager.stack ≠ []
      ∧ 0 < (c.run project).undoManager.current
      ∧ (c.run project).undoManager.current + 1 = (c.run project).undoManager.stack.length := by
  unfold PushCall.run
  refine ⟨PushState_stack_nonempty _ _ _ _, PushState_cursor_pos _ _ _ _ ?_,
    PushState_cursor_at_tail _ _ _ _⟩
  cases c.edit <;> exact h

theorem pushAll_stack (calls : List PushCall) (project : AudacityProject)
    (hcalls : calls ≠ []) (h : project.undoManager.stack ≠ []) :
    (pushAll calls project).undoManager.stack ≠ []
      ∧ 0 < (pushAll calls project).undoManager.current
      ∧ (pushAll calls project).undoManager.current + 1
          = (pushAll calls project).undoManager.stack.length := by
  induction calls generalizing project with
  | nil => exact absurd rfl hcalls
  | cons c cs ih =>
    have hc := PushCall_run_stack c project h
    cases cs with
    | nil => exact hc
    | cons d ds => exact ih (c.run project) (List.cons_ne_nil _ _) hc.1

theorem InitialState_stack_nonempty (project : AudacityProject) :
    (InitialState project).undoManager.stack ≠ [] := by
  rw [InitialState_eq]
  simp

/-- C13 as stated fails: `samplePending` has a pending item; after `InitialState` and
one `PushState` the stack reports undo available, and `UndoAvailable` is false. -/
theorem undo_unavailable_after_push_with_pending :
    (PushState "Edit" "Edit" UndoPush.AUTOSAVE (InitialState samplePending)).undoManager.UndoAvailable
        = true
      ∧ UndoAvailable (PushState "Edit" "Edit" UndoPush.AUTOSAVE (InitialState samplePending))
          = false := by
  decide

/-- C13 as amended: after each of N >= 1 pushes (any edits, descriptions and flags)
made from an `InitialState` baseline with nothing but pushes in between, the stack
reports undo available and `RedoAvailable` is false; `UndoAvailable` is true
when the container has no pending items, and false while it has some. -/
theorem undo_available_after_pushes (start : AudacityProject) (calls : List PushCall)
    (hcalls : calls ≠ []) :
    (pushAll calls (InitialState start)).undoManager.UndoAvailable = true
      ∧ RedoAvailable (pushAll calls (InitialState start)) = false
      ∧ UndoAvailable (pushAll calls (InitialState start))
          = !(pushAll calls (InitialState start)).tracks.HasPendingTracks
      ∧ ((pushAll calls (InitialState start)).tracks.HasPendingTracks = false →
          UndoAvailable (pushAll calls (InitialState start)) = true) := by
  obtain ⟨hne, hpos, htail⟩ :=
    pushAll_stack calls (InitialState start) hcalls (InitialState_stack_nonempty start)
  have hundo : (pushAll calls (InitialState start)).undoManager.UndoAvailable = true := by
    simp [UndoManager.UndoAvailable, hpos, hne]
  have hredo : (pushAll calls (InitialState start)).undoManager.RedoAvailable = false := by
    simp [UndoManager.RedoAvailable, htail]
  refine ⟨hundo, by simp [RedoAvailable, hredo], by simp [UndoAvailable, hundo], ?_⟩
  intro hp
  simp [UndoAvailable, hundo, hp]

/-- C13 as amended, at a concrete input: two pushes from the baseline of
`sampleProject`, the second after `sampleEdit`. -/
theorem undo_available_after_pushes_witness :
    UndoAvailable
        (pushAll
          [{ edit := none, desc := "Add track", shortDesc := "Add", flags := UndoPush.AUTOSAVE },
           { edit := some sampleEdit, desc := "Delete track", shortDesc := "Delete",
             flags := UndoPush.MINIMAL }]
          (InitialState sampleProject)) = true
      ∧ RedoAvailable
        (pushAll
          [{ edit := none, desc := "Add track", shortDesc := "Add", flags := UndoPush.AUTOSAVE },
           { edit := some sampleEdit, desc := "Delete track", shortDesc := "Delete",
             flags := UndoPush.MINIMAL }]
          (InitialState sampleProject)) = false :=
  have h := undo_available_after_pushes sampleProject
    [{ edit := none, desc := "Add track", shortDesc := "Add", flags := UndoPush.AUTOSAVE },
     { edit := some sampleEdit, desc := "Delete track", shortDesc := "Delete",
       flags := UndoPush.MINIMAL }] (by simp)
  ⟨h.2.2.2 (by decide), h.2.1⟩

/-! ## Pushing and modifying: the shape of the history -/

/-- C14: on a non-empty history with the cursor at position `k` (at or before the
tail), `PushState` leaves exactly `k + 2` checkpoints: the old checkpoints `0..k`
unchanged, then one new checkpoint that captures the live container (by value, in
order), selection and metadata handle under the given descriptions; the cursor is
on the new last checkpoint and `RedoAvailable` is false. -/
theorem pushState_no_fork (desc shortDesc : TranslatableString) (flags : UndoPush)
    (project : AudacityProject)
    (hcur : project.undoManager.current < project.undoManager.stack.length) :
    (PushState desc shortDesc flags project).undoManager.stack.length
        = project.undoManager.current + 2
      ∧ (PushState desc shortDesc flags project).undoManager.stack.take
            (project.undoManager.current + 1)
          = project.undoManager.stack.take (project.undoManager.current + 1)
      ∧ (∃ elem : UndoStackElem,
          (PushState desc shortDesc flags project).undoManager.stack.get?
              (project.undoManager.current + 1) = some elem
          ∧ elem.state.tracks.tracks.map Track.content = project.tracks.tracks.map Track.content
          ∧ elem.state.selectedRegion = project.selectedRegion
          ∧ elem.state.tags = project.tags
          ∧ elem.description = desc
          ∧ elem.shortDescription = shortDesc)
      ∧ (PushState desc shortDesc flags project).undoManager.current
          = project.undoManager.current + 1
      ∧ RedoAvailable (PushState desc shortDesc flags project) = false := by
  have hlen : (project.undoManager.stack.take (project.undoManager.current + 1)).length
      = project.undoManager.current + 1 := by
    simp only [List.length_take]
    omega
  have hcurrent := PushState_current desc shortDesc flags project
  rw [hlen] at hcurrent
  have hget := PushState_current_elem desc shortDesc flags project
  rw [hcurrent] at hget
  have htail := PushState_cursor_at_tail desc shortDesc flags project
  refine ⟨by omega, ?_, ⟨_, hget, by simp [freshCopies_content], rfl, rfl, rfl, rfl⟩,
    hcurrent, ?_⟩
  · rw [PushState_stack]
    rw [List.take_append_of_le_length (by omega)]
    simp [List.take_take]
  · simp [RedoAvailable, UndoManager.RedoAvailable, htail]

/-- C14 at a concrete input: three checkpoints, the cursor moved back to position 0,
then a push: two checkpoints remain. -/
theorem pushState_no_fork_witness :
    (PushState "Rename" "Rename" UndoPush.AUTOSAVE
        (scenario sampleProject sampleAdd sampleEdit "Add" "Delete"
          UndoPush.AUTOSAVE UndoPush.AUTOSAVE)).undoManager.stack.length = 2
      ∧ RedoAvailable (PushState "Rename" "Rename" UndoPush.AUTOSAVE
        (scenario sampleProject sampleAdd sampleEdit "Add" "Delete"
          UndoPush.AUTOSAVE UndoPush.AUTOSAVE)) = false :=
  have h := pushState_no_fork "Rename" "Rename" UndoPush.AUTOSAVE
    (scenario sampleProject sampleAdd sampleEdit "Add" "Delete"
      UndoPush.AUTOSAVE UndoPush.AUTOSAVE) (by decide)
  ⟨h.1, h.2.2.2.2⟩

theorem ModifyState_of_get (b : Bool) (project : AudacityProject) (old : UndoStackElem)
    (h : project.undoManager.stack.get? project.undoManager.current = some old) :
    ModifyState b project
      = (if b then ProjectFileIO.AutoSave else id)
          { project with
            undoManager :=
              { project.undoManager with
                stack := project.undoManager.stack.set project.undoManager.current
                  { old with
                    state :=
                      { tracks :=
                          { tracks := freshCopies project.tracks.tracks project.heap
                            pending := [] }
                        selectedRegion := project.selectedRegion
                        tags := project.tags } } }
            heap := project.heap + project.tracks.tracks.length } := by
  cases b <;>
    simp only [ModifyState, UndoManager.ModifyState, h, addDuplicates_eq, TrackList.Any,
      List.nil_append, Bool.false_eq_true, if_false, if_true, id]

theorem ModifyState_of_none (b : Bool) (project : AudacityProject)
    (h : project.undoManager.stack.get? project.undoManager.current = none) :
    ModifyState b project = (if b then ProjectFileIO.AutoSave else id) project := by
  cases b <;>
    simp only [ModifyState, UndoManager.ModifyState, h, Bool.false_eq_true, if_false, if_true,
      id]

/-- C15: on a non-empty history, whatever the cursor position (also before the tail)
and for either value of `bWantsAutoSave`, `ModifyState` creates no history entry:
the stack length and the cursor are unchanged, every checkpoint other than the one
at the cursor is unchanged, the checkpoint at the cursor keeps its descriptions and
now holds the live container (by value, in order), selection and metadata handle,
and the dirty flag is unchanged. -/
theorem modifyState_in_place (b : Bool) (project : AudacityProject)
    (hcur : project.undoManager.current < project.undoManager.stack.length) :
    (ModifyState b project).undoManager.stack.length = project.undoManager.stack.length
      ∧ (ModifyState b project).undoManager.current = project.undoManager.current
      ∧ (∀ i : Nat, i ≠ project.undoManager.current →
          (ModifyState b project).undoManager.stack.get? i = project.undoManager.stack.get? i)
      ∧ (∃ old elem : UndoStackElem,
          project.undoManager.stack.get? project.undoManager.current = some old
          ∧ (ModifyState b project).undoManager.stack.get? project.undoManager.current
              = some elem
          ∧ elem.state.tracks.tracks.map Track.content = project.tracks.tracks.map Track.content
          ∧ elem.state.selectedRegion = project.selectedRegion
          ∧ elem.state.tags = project.tags
          ∧ elem.description = old.description
          ∧ elem.shortDescription = old.shortDescription)
      ∧ (ModifyState b project).mDirty = project.mDirty := by
  obtain ⟨old, hget⟩ : ∃ old, project.undoManager.stack.get? project.undoManager.current
      = some old := ⟨_, List.get?_eq_get hcur⟩
  have hrun := ModifyState_of_get b project old hget
  have hstack : (ModifyState b project).undoManager.stack
      = project.undoManager.stack.set project.undoManager.current
          { old with
            state :=
              { tracks :=
                  { tracks := freshCopies project.tracks.tracks project.heap, pending := [] }
                selectedRegion := project.selectedRegion
                tags := project.tags } } := by
    rw [hrun]; cases b <;> rfl
  have hcurrent : (ModifyState b project).undoManager.current = project.undoManager.current := by
    rw [hrun]; cases b <;> rfl
  refine ⟨by rw [hstack, List.length_set], hcurrent, ?_,
    ⟨old,
      { old with
        state :=
          { tracks := { tracks := freshCopies project.tracks.tracks project.heap, pending := [] }
            selectedRegion := project.selectedRegion
            tags := project.tags } },
      hget, ?_, ?_, rfl, rfl, rfl, rfl⟩,
    ModifyState_mDirty b project⟩
  · intro i hi
    rw [hstack]
    simp only [List.get?_eq_getElem?]
    exact List.getElem?_set_ne (Ne.symm hi)
  · rw [hstack]
    simp only [List.get?_eq_getElem?]
    rw [List.getElem?_set_self hcur]
  · simp [freshCopies_content]

/-- C15 at a concrete input: three checkpoints with the cursor at position 0, the
live state as the restore left it. -/
theorem modifyState_in_place_witness :
    (ModifyState true
        (scenario sampleProject sampleAdd sampleEdit "Add" "Delete"
          UndoPush.AUTOSAVE UndoPush.AUTOSAVE)).undoManager.stack.length = 3
      ∧ (ModifyState true
        (scenario sampleProject sampleAdd sampleEdit "Add" "Delete"
          UndoPush.AUTOSAVE UndoPush.AUTOSAVE)).undoManager.current = 0 :=
  have h := modifyState_in_place true
    (scenario sampleProject sampleAdd sampleEdit "Add" "Delete"
      UndoPush.AUTOSAVE UndoPush.AUTOSAVE) (by decide)
  ⟨h.1.trans (by decide), h.2.1.trans (by decide)⟩

/-- C16: whatever the history and the live state were, after `InitialState` the
stack holds exactly one checkpoint, which captures the live container (by value, in
order), selection and metadata handle under the description "Created new project";
the cursor is on it and so is the saved marker, `UndoAvailable` and `RedoAvailable`
are both false, and no autosave signal has been issued. -/
theorem initialState_single_baseline (project : AudacityProject) :
    (InitialState project).undoManager.stack.length = 1
      ∧ (∃ elem : UndoStackElem,
          (InitialState project).undoManager.stack = [elem]
          ∧ (InitialState project).undoManager.stack.get?
              (InitialState project).undoManager.current = some elem
          ∧ elem.state.tracks.tracks.map Track.content = project.tracks.tracks.map Track.content
          ∧ elem.state.selectedRegion = project.selectedRegion
          ∧ elem.state.tags = project.tags
          ∧ elem.description = "Created new project")
      ∧ (InitialState project).undoManager.current = 0
      ∧ (InitialState project).undoManager.saved
          = some (InitialState project).undoManager.current
      ∧ UndoAvailable (InitialState project) = false
      ∧ RedoAvailable (InitialState project) = false
      ∧ (InitialState project).autosaved = project.autosaved
      ∧ (InitialState project).tracks = project.tracks
      ∧ (InitialState project).selectedRegion = project.selectedRegion
      ∧ (InitialState project).tags = project.tags := by
  rw [InitialState_eq]
  refine ⟨rfl, ⟨_, rfl, rfl, by simp [freshCopies_content], rfl, rfl, rfl⟩, rfl, rfl, ?_, ?_,
    rfl, rfl, rfl, rfl⟩
  · simp [UndoAvailable, UndoManager.UndoAvailable]
  · simp [RedoAvailable, UndoManager.RedoAvailable]

/-! ## Autosave on restore and on modify -/

theorem PopState_autosaved (state : UndoState) (project : AudacityProject) :
    (PopState state project).autosaved
      = project.autosaved ++ [(PopState state project).observe] := by
  rw [PopState_eq]
  rfl

/-- C17: every run of the restore procedure issues the autosave signal exactly once:
`PopState` on any checkpoint, `SetStateTo n` for a valid `n`, and `RollbackState`
on a non-empty history; the flags the checkpoint was pushed with play no part, a
checkpoint pushed with MINIMAL (no signal at the push) is restored with one
signal. -/
theorem restore_always_autosaves :
    (∀ (state : UndoState) (project : AudacityProject),
        (PopState state project).autosaveCount = project.autosaveCount + 1)
      ∧ (∀ (n : Nat) (project : AudacityProject), n < project.undoManager.stack.length →
          (SetStateTo n project).autosaveCount = project.autosaveCount + 1)
      ∧ (∀ project : AudacityProject,
          project.undoManager.current < project.undoManager.stack.length →
          (RollbackState project).autosaveCount = project.autosaveCount + 1)
      ∧ (∀ (desc shortDesc : TranslatableString) (project : AudacityProject),
          (PushState desc shortDesc UndoPush.MINIMAL project).autosaveCount
              = project.autosaveCount
            ∧ (RollbackState (PushState desc shortDesc UndoPush.MINIMAL project)).autosaveCount
              = project.autosaveCount + 1) := by
  have hpop : ∀ (state : UndoState) (project : AudacityProject),
      (PopState state project).autosaveCount = project.autosaveCount + 1 := by
    intro state project
    simp [AudacityProject.autosaveCount, PopState_autosaved]
  have hset : ∀ (n : Nat) (project : AudacityProject), n < project.undoManager.stack.length →
      (SetStateTo n project).autosaveCount = project.autosaveCount + 1 := by
    intro n project hn
    rw [SetStateTo_of_get n project _ (List.get?_eq_get hn), hpop]
    rfl
  refine ⟨hpop, hset, fun project hcur => hset _ project hcur, ?_⟩
  intro desc shortDesc project
  have hpush : (PushState desc shortDesc UndoPush.MINIMAL project).autosaved
      = project.autosaved := by
    rw [PushState_autosaved]
    have b0 : Nat.testBit UndoPush.MINIMAL 1 = false := by decide
    simp [b0]
  have hcount : (PushState desc shortDesc UndoPush.MINIMAL project).autosaveCount
      = project.autosaveCount := by
    simp [AudacityProject.autosaveCount, hpush]
  refine ⟨hcount, ?_⟩
  have hroll := SetStateTo_of_get _ _ _
    (PushState_current_elem desc shortDesc UndoPush.MINIMAL project)
  rw [RollbackState, UndoManager.GetCurrentState, hroll, hpop, ← hcount]

/-- C18: `ModifyState` issues the autosave signal exactly once when `bWantsAutoSave`
is true and issues none when it is false, in every state (also on an empty
history). -/
theorem modifyState_autosave_iff_wanted (project : AudacityProject) :
    (ModifyState true project).autosaveCount = project.autosaveCount + 1
      ∧ (ModifyState true project).autosaved.take project.autosaveCount = project.autosaved
      ∧ (ModifyState false project).autosaved = project.autosaved
      ∧ (ModifyState false project).autosaveCount = project.autosaveCount := by
  cases hget : project.undoManager.stack.get? project.undoManager.current with
  | none =>
    rw [ModifyState_of_none true project hget, ModifyState_of_none false project hget]
    simp [AudacityProject.autosaveCount, AudacityProject.autosaved, ProjectFileIO.AutoSave]
  | some old =>
    rw [ModifyState_of_get true project old hget, ModifyState_of_get false project old hget]
    simp [AudacityProject.autosaveCount, AudacityProject.autosaved, ProjectFileIO.AutoSave]

/-! ## The autosave signal comes last -/

theorem autosave_guard_eq_testBit (flags : UndoPush) :
    ((flags &&& UndoPush.AUTOSAVE) != UndoPush.MINIMAL) = flags.testBit 1 := by
  have h := Nat.and_two_pow flags 1
  simp only [pow_one] at h
  show ((flags &&& 2) != 0) = flags.testBit 1
  rw [h]
  cases flags.testBit 1 <;> simp

theorem PushState_of_bit (desc shortDesc : TranslatableString) (flags : UndoPush)
    (project : AudacityProject) (hbit : flags.testBit 1 = true) :
    PushState desc shortDesc flags project
      = ProjectFileIO.AutoSave
          { (UndoManager.PushState project.tracks project.selectedRegion project.tags
              desc shortDesc flags project) with mDirty := true } := by
  unfold PushState
  simp only [autosave_guard_eq_testBit, hbit, if_true]

theorem AutoSave_observe (project : AudacityProject) :
    ( ProjectFileIO.AutoSave project).observe = project.observe := rfl

theorem AutoSave_autosaved (project : AudacityProject) :
    ( ProjectFileIO.AutoSave project).autosaved = project.autosaved ++ [project.observe] := rfl

theorem AutosaveLast_of_eq (before q : AudacityProject) (h : q.autosaved = before.autosaved) :
    AutosaveLast before ( ProjectFileIO.AutoSave q) :=
  ⟨q, rfl, (AutoSave_observe q).symm, h, by rw [AutoSave_autosaved, AutoSave_observe, h]⟩

theorem PopState_autosave_last (state : UndoState) (project : AudacityProject) :
    AutosaveLast project (PopState state project) := by
  rw [PopState_eq]
  exact AutosaveLast_of_eq _ _ rfl

/-- C19: in every operation that issues an autosave signal the signal is the last
effect: `PushState` with the AUTOSAVE bit, `ModifyState true`, the restore
procedure, `SetStateTo n` for a valid `n` and `RollbackState` on a non-empty
history each end with the signal, issued on a project whose history stack, cursor,
dirty flag and live selection, metadata and container already have their final
values; what the signal records is the final state, and nothing is changed after
it. -/
theorem autosave_is_last_effect :
    (∀ (desc shortDesc : TranslatableString) (flags : UndoPush) (project : AudacityProject),
        flags.testBit 1 = true →
          AutosaveLast project (PushState desc shortDesc flags project))
      ∧ (∀ (desc shortDesc : TranslatableString) (project : AudacityProject),
          AutosaveLast project (PushState2 desc shortDesc project))
      ∧ (∀ project : AudacityProject, AutosaveLast project (ModifyState true project))
      ∧ (∀ (state : UndoState) (project : AudacityProject),
          AutosaveLast project (PopState state project))
      ∧ (∀ (n : Nat) (project : AudacityProject), n < project.undoManager.stack.length →
          AutosaveLast project (SetStateTo n project))
      ∧ (∀ project : AudacityProject,
          project.undoManager.current < project.undoManager.stack.length →
          AutosaveLast project (RollbackState project)) := by
  have hpush : ∀ (desc shortDesc : TranslatableString) (flags : UndoPush)
      (project : AudacityProject), flags.testBit 1 = true →
      AutosaveLast project (PushState desc shortDesc flags project) := by
    intro desc shortDesc flags project hbit
    rw [PushState_of_bit desc shortDesc flags project hbit]
    exact AutosaveLast_of_eq _ _ (by simp [UndoManager_PushState_eq, AudacityProject.autosaved])
  have hset : ∀ (n : Nat) (project : AudacityProject), n < project.undoManager.stack.length →
      AutosaveLast project (SetStateTo n project) := by
    intro n project hn
    rw [SetStateTo_of_get n project _ (List.get?_eq_get hn)]
    exact PopState_autosave_last _ _
  refine ⟨hpush, fun desc shortDesc project => hpush desc shortDesc _ project (by decide), ?_,
    PopState_autosave_last, hset, fun project hcur => hset _ project hcur⟩
  intro project
  cases hget : project.undoManager.stack.get? project.undoManager.current with
  | none =>
    rw [ModifyState_of_none true project hget]
    exact AutosaveLast_of_eq _ _ rfl
  | some old =>
    rw [ModifyState_of_get true project old hget]
    exact AutosaveLast_of_eq _ _ rfl

/-! ## The restore does not depend on the live state before it -/

theorem SetStateTo_fields (n : Nat) (project : AudacityProject) (elem : UndoStackElem)
    (h : project.undoManager.stack.get? n = some elem) :
    (SetStateTo n project).selectedRegion = elem.state.selectedRegion
      ∧ (SetStateTo n project).tags = elem.state.tags
      ∧ (SetStateTo n project).tracks.tracks.map Track.content
          = elem.state.tracks.tracks.map Track.content
      ∧ (SetStateTo n project).undoManager.current = n
      ∧ (SetStateTo n project).undoManager.stack = project.undoManager.stack := by
  rw [SetStateTo_of_get n project elem h, PopState_eq]
  simp [freshCopies_content, ProjectFileIO.AutoSave]

/-- C20: the result of a restore does not depend on the live state before it.  The
restore procedure run on one checkpoint from any two projects gives the same live
selection, metadata handle and item sequence (by value, in order); for valid
positions `j` and `k`, `SetStateTo k` followed by `SetStateTo j` leaves the same
live selection, metadata, item sequence, cursor and checkpoints as `SetStateTo j`
alone, and so does `SetStateTo j` after any edit of the live state. -/
theorem restore_independent_of_live_state (j k : Nat) (project : AudacityProject)
    (hj : j < project.undoManager.stack.length) (hk : k < project.undoManager.stack.length) :
    (∀ (state : UndoState) (p q : AudacityProject),
        (PopState state p).selectedRegion = (PopState state q).selectedRegion
          ∧ (PopState state p).tags = (PopState state q).tags
          ∧ (PopState state p).tracks.tracks.map Track.content
              = (PopState state q).tracks.tracks.map Track.content)
      ∧ (SetStateTo j (SetStateTo k project)).selectedRegion
          = (SetStateTo j project).selectedRegion
      ∧ (SetStateTo j (SetStateTo k project)).tags = (SetStateTo j project).tags
      ∧ (SetStateTo j (SetStateTo k project)).tracks.tracks.map Track.content
          = (SetStateTo j project).tracks.tracks.map Track.content
      ∧ (SetStateTo j (SetStateTo k project)).undoManager.current
          = (SetStateTo j project).undoManager.current
      ∧ (SetStateTo j (SetStateTo k project)).undoManager.stack
          = (SetStateTo j project).undoManager.stack
      ∧ (∀ e : Edit,
          (SetStateTo j (e.apply project)).selectedRegion = (SetStateTo j project).selectedRegion
            ∧ (SetStateTo j (e.apply project)).tags = (SetStateTo j project).tags
            ∧ (SetStateTo j (e.apply project)).tracks.tracks.map Track.content
                = (SetStateTo j project).tracks.tracks.map Track.content) := by
  obtain ⟨ej, hgetj⟩ : ∃ elem, project.undoManager.stack.get? j = some elem :=
    ⟨_, List.get?_eq_get hj⟩
  obtain ⟨ek, hgetk⟩ : ∃ elem, project.undoManager.stack.get? k = some elem :=
    ⟨_, List.get?_eq_get hk⟩
  obtain ⟨a1, a2, a3, a4, a5⟩ := SetStateTo_fields j project ej hgetj
  obtain ⟨_, _, _, _, b5⟩ := SetStateTo_fields k project ek hgetk
  have hgetj2 : (SetStateTo k project).undoManager.stack.get? j = some ej := by
    rw [b5]; exact hgetj
  obtain ⟨c1, c2, c3, c4, c5⟩ := SetStateTo_fields j (SetStateTo k project) ej hgetj2
  refine ⟨?_, c1.trans a1.symm, c2.trans a2.symm, c3.trans a3.symm, c4.trans a4.symm,
    (c5.trans b5).trans a5.symm, ?_⟩
  · intro state p q
    simp [PopState_eq, ProjectFileIO.AutoSave, freshCopies_content]
  · intro e
    have hgete : (e.apply project).undoManager.stack.get? j = some ej := hgetj
    obtain ⟨d1, d2, d3, _, _⟩ := SetStateTo_fields j (e.apply project) ej hgete
    exact ⟨d1.trans a1.symm, d2.trans a2.symm, d3.trans a3.symm⟩

/-- C20 at a concrete input: on the three checkpoints of the scenario, going to
position 2 and then to position 1 gives the live values of going to position 1. -/
theorem restore_independent_of_live_state_witness :
    (SetStateTo 1 (SetStateTo 2
        (scenario sampleProject sampleAdd sampleEdit "Add" "Delete"
          UndoPush.AUTOSAVE UndoPush.AUTOSAVE))).tracks.tracks.map Track.content
      = (SetStateTo 1
        (scenario sampleProject sampleAdd sampleEdit "Add" "Delete"
          UndoPush.AUTOSAVE UndoPush.AUTOSAVE)).tracks.tracks.map Track.content
      ∧ (SetStateTo 1
        (scenario sampleProject sampleAdd sampleEdit "Add" "Delete"
          UndoPush.AUTOSAVE UndoPush.AUTOSAVE)).tracks.tracks.map Track.content = [10, 11, 12] :=
  have h := restore_independent_of_live_state 1 2
    (scenario sampleProject sampleAdd sampleEdit "Add" "Delete"
      UndoPush.AUTOSAVE UndoPush.AUTOSAVE) (by decide) (by decide)
  ⟨h.2.2.2.1, by decide⟩

end ProjectHistory
